import Mathlib

/-!
# Verification of the sdRDM schema-tree linking engine

Shallow embedding of `sdRDM/linking/link.py` and `sdRDM/linking/utils.py`
(the tree linking/conversion engine) together with theorems settling the
frozen claims about it.

Modelling conventions:
* Python dictionaries are association lists with Python's insertion-order
  semantics: assignment to an existing key replaces the value in place,
  assignment to a fresh key appends at the end.
* Python exceptions are the `Err` type inside `Except`; recursion is made
  total with an explicit fuel argument whose exhaustion is reported as
  `Err.recursionError` (Python's RecursionError; every theorem supplies
  enough fuel for faithful runs).
* The regular-expression engine (`re.match`) is an external collaborator
  and is abstracted as a parameter `rmatch : String → String → Bool`
  (pattern, text).
* `sdRDM/linking/nodes.py` (the `ClassNode`/`AttributeNode` classes and the
  materializer `build()`) is not part of the given sources; the node
  structure is modelled from the spec: a ClassNode carries a name and child
  AttributeNodes, an AttributeNode carries a name, a `value` mapping from
  write keys to stored values, and child ClassNodes.  The final
  `root.build()` materialization step is outside the model.
* Python's `str.islower`/`str()` are modelled at the ASCII level, which is
  faithful for the identifier names the engine manipulates.
-/

/-- Python dict lookup (`d.get(k)` / `k in d`): first binding of the key. -/
def alookup {κ α : Type} [DecidableEq κ] : List (κ × α) → κ → Option α
  | [], _ => none
  | (k', v) :: rest, k => if k' = k then some v else alookup rest k

/-- Python dict assignment `d[k] = v`: replace in place if the key exists,
otherwise append at the end (insertion-order semantics). -/
def dictInsert {κ α : Type} [DecidableEq κ] : List (κ × α) → κ → α → List (κ × α)
  | [], k, v => [(k, v)]
  | (k', v') :: rest, k, v =>
      if k' = k then (k, v) :: rest else (k', v') :: dictInsert rest k v

/-- Python `d.update(e)` / `{**d, **e}`: fold assignments of `e` into `d`. -/
def dictUpdate {κ α : Type} [DecidableEq κ] (d e : List (κ × α)) : List (κ × α) :=
  e.foldl (fun acc kv => dictInsert acc kv.1 kv.2) d

/-- Helper for `pySplitDot`: accumulate characters of the current segment. -/
def splitDotAux : List Char → List Char → List String
  | [], acc => [String.mk acc.reverse]
  | c :: rest, acc =>
      if c = '.' then String.mk acc.reverse :: splitDotAux rest []
      else splitDotAux rest (c :: acc)

/-- Python `s.split(".")`. -/
def pySplitDot (s : String) : List String := splitDotAux s.toList []

/-- Python `s.strip(".")`: remove leading and trailing dots. -/
def pyStripDot (s : String) : String :=
  String.mk (((s.toList.dropWhile (· = '.')).reverse.dropWhile (· = '.')).reverse)

/-- Python `name[0].islower()` (ASCII; Python raises on an empty name, which
never occurs for the identifier names involved — modelled as `false`). -/
def isLowerInit (s : String) : Bool :=
  match s.toList with
  | c :: _ => c.isLower
  | [] => false

/-- The Python exceptions the linking engine can raise, as structured data
(the message text of each exception is abstracted to its payload). -/
inductive Err where
  /-- `TypeError` (e.g. indexing a string key with a string). -/
  | typeError : Err
  /-- `KeyError` with the missing key. -/
  | keyError : String → Err
  /-- `AttributeError` with the missing attribute. -/
  | attributeError : String → Err
  /-- `IndexError` (empty `findall` result indexed with `[0]`). -/
  | indexError : Err
  /-- The ambiguous-mapping `ValueError` of `_check_matching_target`,
  carrying the symbolic path and the number of matches it reports. -/
  | valueError : String → Nat → Err
  /-- `ValueError` from unpacking `lib, root, *_ = target.split(".")` when
  fewer than two segments are present. -/
  | unpackError : Err
  /-- `ModuleNotFoundError` from `importlib.import_module`. -/
  | importError : String → Err
  /-- `FileNotFoundError` from `open(path)`. -/
  | fileNotFoundError : String → Err
  /-- Fuel exhaustion of the model (Python's RecursionError). -/
  | recursionError : Err
deriving DecidableEq, Repr

instance {ε α : Type} [DecidableEq ε] [DecidableEq α] : DecidableEq (Except ε α) := fun
  | .ok a, .ok b =>
      if h : a = b then .isTrue (by rw [h]) else .isFalse (by intro hc; cases hc; exact h rfl)
  | .error a, .error b =>
      if h : a = b then .isTrue (by rw [h]) else .isFalse (by intro hc; cases hc; exact h rfl)
  | .ok _, .error _ => .isFalse (by intro hc; cases hc)
  | .error _, .ok _ => .isFalse (by intro hc; cases hc)

/-- Primitive (non-model, non-list) Python values stored in leaves. -/
inductive PVal where
  | pstr : String → PVal
  | pint : Int → PVal
  | pnone : PVal
deriving DecidableEq, Repr

/-- Python `str()` of a primitive value. -/
def PVal.pyStr : PVal → String
  | .pstr s => s
  | .pint n => toString n
  | .pnone => "None"

mutual
/-- A runtime Python value of the source instance graph: a primitive, a
data-model instance (something with `__fields__`), or a list. -/
inductive Value where
  | prim : PVal → Value
  | model : List FieldSlot → Value
  | vlist : List Value → Value

/-- One field of a source instance, bundling what `link.py` reads off a
pydantic field: its name, whether `field.type_` has `__fields__` (and if so
the class name, for `_extract_roots`' class recursion), the name of the
outer wrapping type (`_get_wrapping_type`), the `field_info.extra` mapping
of option names to target paths, and the current attribute value. -/
inductive FieldSlot where
  | mk : (name : String) → (typeRef : Option String) → (outer : Option String) →
         (extra : List (String × String)) → (value : Value) → FieldSlot
end

def FieldSlot.name : FieldSlot → String
  | .mk n _ _ _ _ => n

def FieldSlot.typeRef : FieldSlot → Option String
  | .mk _ t _ _ _ => t

def FieldSlot.outer : FieldSlot → Option String
  | .mk _ _ o _ _ => o

def FieldSlot.extra : FieldSlot → List (String × String)
  | .mk _ _ _ e _ => e

def FieldSlot.value : FieldSlot → Value
  | .mk _ _ _ _ v => v

/-- Python `isinstance(value, list)`. -/
def Value.isList : Value → Bool
  | .vlist _ => true
  | _ => false

/-- The elements of a list value (only consulted under `isList`). -/
def Value.elems : Value → List Value
  | .vlist es => es
  | _ => []

/-- Python `hasattr(obj, "__fields__")` on a value. -/
def Value.isModel : Value → Bool
  | .model _ => true
  | _ => false

/-- Accessing `obj.__fields__` (AttributeError on a non-model value). -/
def Value.modelFieldsE : Value → Except Err (List FieldSlot)
  | .model fs => .ok fs
  | _ => .error (.attributeError "__fields__")

/-- Python `getattr(obj, name)` for a model value: the named field's
current value. -/
def getattrSlots : List FieldSlot → String → Option Value
  | [], _ => none
  | f :: rest, n => if f.name = n then some f.value else getattrSlots rest n

/-- Python `getattr(obj, name)` on an arbitrary value (AttributeError when
the value is not a model or lacks the attribute). -/
def Value.getattrE (v : Value) (n : String) : Except Err Value :=
  match v with
  | .model fs =>
      match getattrSlots fs n with
      | some w => .ok w
      | none => .error (.attributeError n)
  | _ => .error (.attributeError n)

/-- Python `str()` of a value as used for regex matching of a match
attribute.  Non-primitive match attributes never occur in the linking
scenarios; their rendering is fixed to a placeholder. -/
def Value.pyStr : Value → String
  | .prim p => p.pyStr
  | .model _ => "<model>"
  | .vlist _ => "<list>"

/-- `_only_classes` (link.py): whether every member of a list has
`__fields__`. -/
def _only_classes (value : List Value) : Bool :=
  value.all Value.isModel

/-- `_get_wrapping_type` (link.py): the name of the outer origin type of a
field, if any. -/
def _get_wrapping_type (f : FieldSlot) : Option String :=
  f.outer

/-- Write keys of an AttributeNode's `value` dictionary: either the numeric
`obj_index` or the composite string `f"{attr_path}.{obj_index}"`. -/
inductive WKey where
  | idx : Nat → WKey
  | key : String → WKey
deriving DecidableEq, Repr

/-- Guide-tree nodes.  Modelled from the spec: `sdRDM/linking/nodes.py` is
not among the sources.  A `cls` node (ClassNode) carries the class name and
its child AttributeNodes; an `attr` node (AttributeNode) carries the field
name, the `value` write dictionary, and its child ClassNodes. -/
inductive GNode where
  | cls : (name : String) → (children : List GNode) → GNode
  | attr : (name : String) → (value : List (WKey × Value)) → (children : List GNode) → GNode

def GNode.name : GNode → String
  | .cls n _ => n
  | .attr n _ _ => n

def GNode.isAttr : GNode → Bool
  | .attr _ _ _ => true
  | .cls _ _ => false

/-- The `value` dictionary of an AttributeNode (`none` on a ClassNode,
which has no such attribute). -/
def GNode.valueDict : GNode → Option (List (WKey × Value))
  | .attr _ vals _ => some vals
  | .cls _ _ => none

/-- The target-root registry: Python dict from root class name to guide
tree. -/
abbrev Roots := List (String × GNode)

/-- A rule object inside a template entry: the optional `attribute`,
`pattern` and `targets` keys of the rule dictionary (each `none` when the
key is absent). -/
structure RuleDict where
  attributeKey : Option String
  pattern : Option String
  targets : Option (List (String × String))
deriving DecidableEq, Repr

/-- One value of the parsed link-template mapping: either a plain YAML
mapping — its string-valued pairs (the flat attribute-to-target-path form)
plus the optional `"targets"` sub-mapping — or a list of rule
dictionaries. -/
inductive TVal where
  | dictEntry : (pairs : List (String × String)) → (targets : Option (List (String × String))) → TVal
  | listEntry : List RuleDict → TVal
deriving DecidableEq, Repr

/-- Python truthiness of a template entry (`if not targets`): an empty
dict or an empty list is falsy. -/
def TVal.pyFalsy : TVal → Bool
  | .dictEntry [] none => true
  | .listEntry [] => true
  | _ => false

/-- The parsed link template: Python dict from symbolic path to entry. -/
abbrev Template := List (String × TVal)

/-- The loop body of `_check_matching_target`: walk the rule list and
collect, in order, every rule whose pattern matches the string form of the
candidate object's match attribute (`re.match(pattern, str(match_attr))`,
with the regex engine abstracted as `rmatch`).  Missing rule keys raise
KeyError, a missing match attribute raises AttributeError. -/
def collectMatches (rmatch : String → String → Bool) (obj : Value) :
    List RuleDict → Except Err (List RuleDict)
  | [] => .ok []
  | r :: rest => do
      let attrName ← match r.attributeKey with
        | some a => Except.ok a
        | none => Except.error (Err.keyError "attribute")
      let mv ← obj.getattrE attrName
      let pat ← match r.pattern with
        | some p => Except.ok p
        | none => Except.error (Err.keyError "pattern")
      let ms ← collectMatches rmatch obj rest
      Except.ok (if rmatch pat mv.pyStr then r :: ms else ms)

/-- `_check_matching_target` (link.py): look up the template entry at
`path`; a missing or falsy entry yields `{}`.  Otherwise the entry is
iterated as a rule list: indexing the iterate with `["attribute"]` raises
TypeError when the entry is a plain mapping (iteration yields string
keys); for a rule list the matching rules are collected, more than one
match raises the ambiguous-mapping ValueError naming the path and the
match count, zero matches yield `{}`, and exactly one match yields that
rule's `targets` mapping. -/
def _check_matching_target (rmatch : String → String → Bool) (obj : Value)
    (path : String) (template : Template) : Except Err (List (String × String)) :=
  match alookup template path with
  | none => .ok []
  | some tv =>
      if tv.pyFalsy then .ok []
      else
        match tv with
        | .dictEntry _ _ => .error .typeError
        | .listEntry rules => do
            let ms ← collectMatches rmatch obj rules
            if ms.length > 1 then .error (.valueError path ms.length)
            else
              match ms with
              | [] => .ok []
              | m :: _ =>
                  match m.targets with
                  | some t => .ok t
                  | none => .error (Err.keyError "targets")

/-- `_search_by_path` (link.py): a node matches a decomposed target path
when the lowercase-initial names along its ancestor chain (root to node)
equal the path. -/
def _search_by_path (path : List String) (chainNames : List String) : Bool :=
  decide (chainNames.filter isLowerInit = path)

def GNode.children : GNode → List GNode
  | .cls _ cs => cs
  | .attr _ _ cs => cs

mutual
/-- `anytree.findall(node, _search_by_path(path))`: all nodes of the
subtree, in pre-order, whose filtered ancestor-name chain equals `path`.
`chain` is the (unfiltered) name chain of the node's ancestors. -/
def findallG : Nat → GNode → List String → List String → Option (List GNode)
  | 0, _, _, _ => none
  | fuel + 1, g, chain, path =>
      let chain' := chain ++ [g.name]
      let hd := if _search_by_path path chain' then [g] else []
      (findallGList fuel g.children chain' path).map (fun tl => hd ++ tl)

def findallGList : Nat → List GNode → List String → List String → Option (List GNode)
  | 0, _, _, _ => none
  | _ + 1, [], _, _ => some []
  | fuel + 1, c :: cs, chain, path => do
      let a ← findallG fuel c chain path
      let b ← findallGList fuel cs chain path
      pure (a ++ b)
end

/-- Result of the single-pass search-and-update underlying
`_assign_primitive_data_to_node`: the updated node/list when the first
pre-order match is an AttributeNode, `foundCls` when it is a ClassNode
(which has no `value` dictionary), `notFound` when nothing matches. -/
inductive SearchRes (α : Type) where
  | found : α → SearchRes α
  | foundCls : SearchRes α
  | notFound : SearchRes α
  | fuelOut : SearchRes α
deriving DecidableEq, Repr

mutual
/-- Locate the first pre-order node matching `path` and store `v` at write
key `idx` in its `value` dictionary (`node.value[index] = value`). -/
def searchAssign (v : Value) (idx : WKey) (path : List String) :
    Nat → GNode → List String → SearchRes GNode
  | 0, _, _ => .fuelOut
  | fuel + 1, .cls n cs, chain =>
      let chain' := chain ++ [n]
      if _search_by_path path chain' then .foundCls
      else
        match searchAssignList v idx path fuel cs chain' with
        | .found cs' => .found (.cls n cs')
        | .foundCls => .foundCls
        | .notFound => .notFound
        | .fuelOut => .fuelOut
  | fuel + 1, .attr n vals cs, chain =>
      let chain' := chain ++ [n]
      if _search_by_path path chain' then .found (.attr n (dictInsert vals idx v) cs)
      else
        match searchAssignList v idx path fuel cs chain' with
        | .found cs' => .found (.attr n vals cs')
        | .foundCls => .foundCls
        | .notFound => .notFound
        | .fuelOut => .fuelOut

def searchAssignList (v : Value) (idx : WKey) (path : List String) :
    Nat → List GNode → List String → SearchRes (List GNode)
  | 0, _, _ => .fuelOut
  | _ + 1, [], _ => .notFound
  | fuel + 1, c :: cs, chain =>
      match searchAssign v idx path fuel c chain with
      | .found c' => .found (c' :: cs)
      | .foundCls => .foundCls
      | .fuelOut => .fuelOut
      | .notFound =>
          match searchAssignList v idx path fuel cs chain with
          | .found cs' => .found (c :: cs')
          | .foundCls => .foundCls
          | .notFound => .notFound
          | .fuelOut => .fuelOut
end

/-- `_assign_primitive_data_to_node` (link.py):
`findall(node, _search_by_path(path))[0]` followed by
`node.value[index] = value`.  An empty result indexed with `[0]` raises
IndexError; when the first match is a ClassNode the `value` attribute is
missing (AttributeError); otherwise the first matching AttributeNode's
dictionary gains `index ↦ value` and the updated tree is returned. -/
def _assign_primitive_data_to_node (fuel : Nat) (path : List String) (node : GNode)
    (value : Value) (index : WKey) : Except Err GNode :=
  match searchAssign value index path fuel node [] with
  | .found g => .ok g
  | .foundCls => .error (.attributeError "value")
  | .notFound => .error .indexError
  | .fuelOut => .error .recursionError

/-- Observation helper: the `value` dictionary of the first node matching
`path` in the tree, when it exists and is an AttributeNode. -/
def observeAt (fuel : Nat) (g : GNode) (path : List String) : Option (List (WKey × Value)) :=
  ((findallG fuel g [] path).bind List.head?).bind GNode.valueDict

/-- Decompose a target-path string: `lib, root, *path = target.split(".")`
(ValueError when fewer than two segments), returning the root class name
and the remaining node path. -/
def splitTargetPath (tpath : String) : Except Err (String × List String) :=
  match pySplitDot tpath with
  | _ :: root :: path => .ok (root, path)
  | _ => .error .unpackError

mutual
/-- `_convert_tree` (link.py), as the walk over `obj.__fields__`.  For
each field in declaration order: a non-list value of a model-typed field
(Case A) re-resolves the active targets at the child path and recurses —
the resolved targets also replace `target` for the remaining fields; a
list of model instances under a `list`-wrapped field (Case B) resolves the
shared child path per element and recurses with write index
`obj_index + i`; otherwise (Case C) the value is written through
`target[attribute]` at the numeric `obj_index` if present, else through
the field's annotation for `option` at the composite key
`f"{attr_path}.{obj_index}"`, and with neither mapping the function
returns `None`, abandoning the remaining fields. -/
def _convert_tree (rmatch : String → String → Bool) (option : String) (template : Template) :
    Nat → List FieldSlot → Nat → String → List (String × String) → Roots → Except Err Roots
  | 0, _, _, _, _, _ => .error .recursionError
  | _ + 1, [], _, _, _, roots => .ok roots
  | fuel + 1, f :: rest, objIndex, attrPath, target, roots =>
      let value := f.value
      if !value.isList && f.typeRef.isSome then do
        let childPath := pyStripDot (attrPath ++ "." ++ f.name)
        let target' ← _check_matching_target rmatch value childPath template
        let fs ← value.modelFieldsE
        let roots' ← _convert_tree rmatch option template fuel fs objIndex childPath target' roots
        _convert_tree rmatch option template fuel rest objIndex attrPath target' roots'
      else if value.isList && _only_classes value.elems then
        if _get_wrapping_type f = some "list" then do
          let childPath := pyStripDot (attrPath ++ "." ++ f.name)
          let st ← _convert_elems rmatch option template fuel value.elems 0 objIndex childPath target roots
          _convert_tree rmatch option template fuel rest objIndex attrPath st.2 st.1
        else
          _convert_tree rmatch option template fuel rest objIndex attrPath target roots
      else
        match alookup target f.name with
        | some tpath => do
            let rp ← splitTargetPath tpath
            let node ← match alookup roots rp.1 with
              | some nd => Except.ok nd
              | none => Except.error (Err.keyError rp.1)
            let node' ← _assign_primitive_data_to_node fuel rp.2 node value (.idx objIndex)
            _convert_tree rmatch option template fuel rest objIndex attrPath target
              (dictInsert roots rp.1 node')
        | none =>
            match alookup f.extra option with
            | some opath => do
                let rp ← splitTargetPath opath
                let nuIndex := WKey.key (attrPath ++ "." ++ toString objIndex)
                let node ← match alookup roots rp.1 with
                  | some nd => Except.ok nd
                  | none => Except.error (Err.keyError rp.1)
                let node' ← _assign_primitive_data_to_node fuel rp.2 node value nuIndex
                _convert_tree rmatch option template fuel rest objIndex attrPath target
                  (dictInsert roots rp.1 node')
            | none => .ok roots

/-- The element loop of Case B: each element independently re-resolves the
shared child path against the template and is recursed into with write
index `obj_index + i`; the loop variable `target` keeps the last
element's resolution, which the caller continues with. -/
def _convert_elems (rmatch : String → String → Bool) (option : String) (template : Template) :
    Nat → List Value → Nat → Nat → String → List (String × String) → Roots →
    Except Err (Roots × List (String × String))
  | 0, _, _, _, _, _, _ => .error .recursionError
  | _ + 1, [], _, _, _, target, roots => .ok (roots, target)
  | fuel + 1, e :: es, i, objIndex, childPath, _, roots => do
      let target' ← _check_matching_target rmatch e childPath template
      let fs ← e.modelFieldsE
      let roots' ← _convert_tree rmatch option template fuel fs (objIndex + i) childPath target' roots
      _convert_elems rmatch option template fuel es (i + 1) objIndex childPath target' roots'
end

/-- A declared type position in a schema: either a non-schema type or a
reference (by class name) to a schema type that has `__fields__`. -/
inductive TypeRef where
  | prim : String → TypeRef
  | schema : String → TypeRef
deriving DecidableEq, Repr

/-- The inner (`field.type_`) declared type of a schema field: a single
type or a `Union` of alternatives. -/
inductive InnerType where
  | single : TypeRef → InnerType
  | union : List TypeRef → InnerType
deriving DecidableEq, Repr

/-- The union-alternative list of `build_guide_tree`:
`get_origin(inner_type) is Union` yields the argument list, otherwise the
single declared type is the only alternative. -/
def innerAlts : InnerType → List TypeRef
  | .single t => [t]
  | .union ts => ts

/-- Static metadata of one schema field, as read by `build_guide_tree` and
`_extract_roots`: name, outer origin-type name, inner type, and the
`field_info.extra` option-to-target-path mapping. -/
structure FieldMeta where
  name : String
  outer : Option String
  inner : InnerType
  extra : List (String × String)
deriving DecidableEq, Repr

/-- A schema class: its `__name__`, `__module__`, and `__fields__`
metadata. -/
structure SchemaDef where
  name : String
  module : String
  fields : List FieldMeta
deriving DecidableEq, Repr

/-- The universe of schema classes (Python holds direct class references;
the model resolves the reference names against this environment). -/
abbrev SchemaEnv := List SchemaDef

def lookupSchema (env : SchemaEnv) (n : String) : Option SchemaDef :=
  env.find? (fun sd => sd.name == n)

mutual
/-- `build_guide_tree` (utils.py): create a ClassNode named after the
schema and, for each field in declaration order, an AttributeNode child
(its `value` write dictionary starting empty); for each union alternative
that is itself a schema type whose name differs from the current
ClassNode's name, recursively build its sub-tree as a child of the
AttributeNode.  The `module`/`outer_type` bookkeeping attributes recorded
on nodes are not observed by any claim and are omitted from the node
model. -/
def build_guide_tree (env : SchemaEnv) : Nat → SchemaDef → Option GNode
  | 0, _ => none
  | fuel + 1, s =>
      (buildFieldNodes env fuel s.name s.fields).map (fun cs => GNode.cls s.name cs)

/-- The field loop of `build_guide_tree`. -/
def buildFieldNodes (env : SchemaEnv) : Nat → String → List FieldMeta → Option (List GNode)
  | 0, _, _ => none
  | _ + 1, _, [] => some []
  | fuel + 1, clsName, f :: rest => do
      let kids ← buildAltNodes env fuel clsName (innerAlts f.inner)
      let others ← buildFieldNodes env fuel clsName rest
      pure (GNode.attr f.name [] kids :: others)

/-- The alternative loop of `build_guide_tree`: recurse exactly for schema
alternatives whose name differs from the enclosing ClassNode's name.  (A
reference name missing from the environment cannot occur in Python, where
alternatives are direct class references; it is skipped.) -/
def buildAltNodes (env : SchemaEnv) : Nat → String → List TypeRef → Option (List GNode)
  | 0, _, _ => none
  | _ + 1, _, [] => some []
  | fuel + 1, clsName, t :: ts => do
      let rest ← buildAltNodes env fuel clsName ts
      match t with
      | .prim _ => pure rest
      | .schema b =>
          if b ≠ clsName then
            match lookupSchema env b with
            | some sb => (build_guide_tree env fuel sb).map (fun c => c :: rest)
            | none => pure rest
          else pure rest
end

mutual
/-- Total number of nodes (ClassNodes and AttributeNodes) of a guide
tree. -/
def gnodeCount : GNode → Nat
  | .cls _ cs => 1 + gnodeCountList cs
  | .attr _ _ cs => 1 + gnodeCountList cs

def gnodeCountList : List GNode → Nat
  | [] => 0
  | c :: cs => gnodeCount c + gnodeCountList cs
end

mutual
/-- The number of declared field slots of a schema plus, transitively, the
field slots of every nested schema expanded through a guard-passing
alternative — the claim's "declared fields plus transitively reachable
nested-schema fields", counted with the same fuel discipline as
`build_guide_tree`. -/
def fieldSlotCount (env : SchemaEnv) : Nat → SchemaDef → Nat
  | 0, _ => 0
  | fuel + 1, s => fieldSlotCountFields env fuel s.name s.fields

def fieldSlotCountFields (env : SchemaEnv) : Nat → String → List FieldMeta → Nat
  | 0, _, _ => 0
  | _ + 1, _, [] => 0
  | fuel + 1, clsName, f :: rest =>
      1 + fieldSlotCountAlts env fuel clsName (innerAlts f.inner)
        + fieldSlotCountFields env fuel clsName rest

def fieldSlotCountAlts (env : SchemaEnv) : Nat → String → List TypeRef → Nat
  | 0, _, _ => 0
  | _ + 1, _, [] => 0
  | fuel + 1, clsName, t :: ts =>
      (match t with
        | .prim _ => 0
        | .schema b =>
            if b ≠ clsName then
              match lookupSchema env b with
              | some sb => fieldSlotCount env fuel sb
              | none => 0
            else 0)
        + fieldSlotCountAlts env fuel clsName ts
end

mutual
/-- The number of guard-passing schema-alternative expansions performed by
`build_guide_tree` (one ClassNode is created per expansion). -/
def altExpansionCount (env : SchemaEnv) : Nat → SchemaDef → Nat
  | 0, _ => 0
  | fuel + 1, s => altExpansionCountFields env fuel s.name s.fields

def altExpansionCountFields (env : SchemaEnv) : Nat → String → List FieldMeta → Nat
  | 0, _, _ => 0
  | _ + 1, _, [] => 0
  | fuel + 1, clsName, f :: rest =>
      altExpansionCountAlts env fuel clsName (innerAlts f.inner)
        + altExpansionCountFields env fuel clsName rest

def altExpansionCountAlts (env : SchemaEnv) : Nat → String → List TypeRef → Nat
  | 0, _, _ => 0
  | _ + 1, _, [] => 0
  | fuel + 1, clsName, t :: ts =>
      (match t with
        | .prim _ => 0
        | .schema b =>
            if b ≠ clsName then
              match lookupSchema env b with
              | some sb => 1 + altExpansionCount env fuel sb
              | none => 0
            else 0)
        + altExpansionCountAlts env fuel clsName ts
end

/-- Whether `build_guide_tree` on schema `s` recurses (directly) into
schema `sb`: some field of `s` has a union alternative referencing a
schema named differently from `s` that resolves to `sb`. -/
def refEdgeB (env : SchemaEnv) (s sb : SchemaDef) : Bool :=
  s.fields.any fun f =>
    (innerAlts f.inner).any fun t =>
      match t with
      | TypeRef.prim _ => false
      | TypeRef.schema b => b ≠ s.name && lookupSchema env b == some sb

/-- `importlib.import_module(lib)` followed by `getattr(lib, root)`:
resolve a module tag and class name against the schema environment
(ModuleNotFoundError when no schema lives in the module, AttributeError
when the module exists but holds no such class). -/
def importRoot (env : SchemaEnv) (lib root : String) : Except Err SchemaDef :=
  if env.any (fun sd => sd.module == lib) then
    match env.find? (fun sd => sd.module == lib && sd.name == root) with
    | some sd => .ok sd
    | none => .error (.attributeError root)
  else .error (.importError lib)

/-- Decompose a target path into its first two segments:
`lib, root, *_ = target.split(".")` (ValueError when fewer than two
segments). -/
def splitLibRoot (tpath : String) : Except Err (String × String) :=
  match pySplitDot tpath with
  | lib :: root :: _ => .ok (lib, root)
  | _ => .error .unpackError

/-- Run `build_guide_tree` inside the exception monad (fuel exhaustion is
the model's RecursionError). -/
def buildGuideTreeE (env : SchemaEnv) (fuel : Nat) (sd : SchemaDef) : Except Err GNode :=
  match build_guide_tree env fuel sd with
  | some t => .ok t
  | none => .error .recursionError

/-- The loop of `_get_target_roots`, threading the `root_classes`
accumulator. -/
def _get_target_roots_aux (env : SchemaEnv) (fuel : Nat) :
    List (String × String) → Roots → Except Err Roots
  | [], acc => .ok acc
  | (_, target) :: rest, acc => do
      let lr ← splitLibRoot target
      let sd ← importRoot env lr.1 lr.2
      let tree ← buildGuideTreeE env fuel sd
      _get_target_roots_aux env fuel rest (dictInsert acc lr.2 tree)

/-- `_get_target_roots` (link.py): for every target-path value of a
`targets` mapping, import its module, resolve its root class and store the
root's guide tree under the root class name. -/
def _get_target_roots (env : SchemaEnv) (fuel : Nat) (targets : List (String × String)) :
    Except Err Roots :=
  _get_target_roots_aux env fuel targets []

/-- The rule loop of `_extract_roots_from_template` for list entries:
only rules carrying a `targets` key contribute. -/
def _ertRules (env : SchemaEnv) (fuel : Nat) : List RuleDict → Roots → Except Err Roots
  | [], acc => .ok acc
  | rd :: rest, acc =>
      match rd.targets with
      | none => _ertRules env fuel rest acc
      | some ts => do
          let rs ← _get_target_roots env fuel ts
          _ertRules env fuel rest (dictUpdate acc rs)

/-- The entry loop of `_extract_roots_from_template`: a non-list entry
contributes only when it has a `targets` key (a flat
attribute-to-target-path mapping without one is skipped); every rule of a
list entry with a `targets` key contributes. -/
def _ertEntries (env : SchemaEnv) (fuel : Nat) : List (String × TVal) → Roots → Except Err Roots
  | [], acc => .ok acc
  | (_, tv) :: rest, acc =>
      match tv with
      | .dictEntry _ none => _ertEntries env fuel rest acc
      | .dictEntry _ (some ts) => do
          let rs ← _get_target_roots env fuel ts
          _ertEntries env fuel rest (dictUpdate acc rs)
      | .listEntry rules => do
          let acc' ← _ertRules env fuel rules acc
          _ertEntries env fuel rest acc'

/-- `_extract_roots_from_template` (link.py): build a guide tree for the
root of every target path found in `targets` mappings of the template. -/
def _extract_roots_from_template (env : SchemaEnv) (fuel : Nat) (template : Template) :
    Except Err Roots :=
  _ertEntries env fuel template []

mutual
/-- `_extract_roots` (link.py) applied to a source instance: for every
field whose `field_info.extra` holds the active option, import and build
the annotated root's guide tree into `roots`; recurse into the field's
declared class when `field.type_` has `__fields__`.  (The code's first
recursion branch, `hasattr(field, "__fields__")`, is never taken: pydantic
field descriptors have no `__fields__` attribute.)  `roots` is the
caller-supplied dictionary — in Python the mutable default dictionary when
the argument is omitted. -/
def _extract_roots (env : SchemaEnv) (option : String) :
    Nat → List FieldSlot → Roots → Except Err Roots
  | 0, _, _ => .error .recursionError
  | _ + 1, [], roots => .ok roots
  | fuel + 1, f :: rest, roots => do
      let roots₁ ←
        match alookup f.extra option with
        | some tp => do
            let lr ← splitLibRoot tp
            let sd ← importRoot env lr.1 lr.2
            let tree ← buildGuideTreeE env fuel sd
            pure (dictInsert roots lr.2 tree)
        | none => pure roots
      let roots₂ ←
        match f.typeRef with
        | some tn =>
            match lookupSchema env tn with
            | some sd => _extract_roots_from_class env option fuel sd.fields roots₁
            | none => pure roots₁
        | none => pure roots₁
      _extract_roots env option fuel rest roots₂

/-- `_extract_roots` recursing over a schema class (`obj=field.type_`):
identical walk over the class's field metadata. -/
def _extract_roots_from_class (env : SchemaEnv) (option : String) :
    Nat → List FieldMeta → Roots → Except Err Roots
  | 0, _, _ => .error .recursionError
  | _ + 1, [], roots => .ok roots
  | fuel + 1, f :: rest, roots => do
      let roots₁ ←
        match alookup f.extra option with
        | some tp => do
            let lr ← splitLibRoot tp
            let sd ← importRoot env lr.1 lr.2
            let tree ← buildGuideTreeE env fuel sd
            pure (dictInsert roots lr.2 tree)
        | none => pure roots
      let roots₂ ←
        match f.inner with
        | .single (.schema tn) =>
            match lookupSchema env tn with
            | some sd => _extract_roots_from_class env option fuel sd.fields roots₁
            | none => pure roots₁
        | _ => pure roots₁
      _extract_roots_from_class env option fuel rest roots₂
end

/-- The template files visible to `convert_data_model`, already parsed
(YAML parsing is an external collaborator). -/
structure FileSys where
  files : List (String × Template)

/-- Python interpreter state that persists across calls of
`convert_data_model`: the mutable dictionary object bound to the `roots`
default parameter of `_extract_roots`, which is created once at function
definition time and mutated by every call that omits the argument. -/
structure PyState where
  extractRootsDefault : Roots

/-- The template-reading step of `convert_data_model`: a falsy `path`
yields the empty template; otherwise `yaml.safe_load(open(path))`, where
`open` raises FileNotFoundError when the file does not exist. -/
def loadTemplate (fs : FileSys) (path : Option String) : Except Err Template :=
  match path with
  | none => .ok []
  | some p =>
      match alookup fs.files p with
      | some t => .ok t
      | none => .error (.fileNotFoundError p)

/-- `convert_data_model` (link.py): read the template, build the target
roots from the template and from the source annotations (the annotation
scan starts from the shared mutable default dictionary and its result
overrides template-derived roots in the `{**·, **·}` merge), then transfer
the data.  The returned pair is the filled root registry together with the
successor interpreter state; the final `root.build()` materialization
(`nodes.py`, not among the sources) is outside the model, and the aliasing
of node objects between the returned registry and the default dictionary
is not tracked — the state keeps the trees as built. -/
def convert_data_model (env : SchemaEnv) (rmatch : String → String → Bool) (fs : FileSys)
    (fuel : Nat) (obj : List FieldSlot) (option : String) (path : Option String)
    (st : PyState) : Except Err (Roots × PyState) := do
  let template ← loadTemplate fs path
  let tRoots ← _extract_roots_from_template env fuel template
  let eRoots ← _extract_roots env option fuel obj st.extractRootsDefault
  let roots := dictUpdate tRoots eRoots
  let roots' ← _convert_tree rmatch option template fuel obj 0 "" [] roots
  .ok (roots', ⟨eRoots⟩)

/-! ## Concrete fixtures used by counterexamples and witnesses -/

/-- A one-class schema environment: `libA.Sample` with a single primitive
field `temp` (the spec's §8 scenario). -/
def envSample : SchemaEnv :=
  [⟨"Sample", "libA", [⟨"temp", none, .single (.prim "float"), []⟩]⟩]

/-- The guide tree `build_guide_tree` produces for `Sample`. -/
def sampleTree : GNode := .cls "Sample" [.attr "temp" [] []]

/-- A source instance `Measurement{temperature: 25}` whose `temperature`
field is annotated for option `"A"` with `libA.Sample.temp`. -/
def measurementSample : List FieldSlot :=
  [.mk "temperature" none none [("A", "libA.Sample.temp")] (.prim (.pint 25))]

/-- A distinguishable stale tree stored under the root name `Sample`. -/
def markerTree : GNode := .cls "Sample" [.attr "stale" [] []]

/-- A template whose single entry is a rule list targeting
`libA.Sample.temp`. -/
def sampleRuleTemplate : Template :=
  [("p", .listEntry [⟨some "k", some "pat", some [("a", "libA.Sample.temp")]⟩])]

/-! ## C1 -/

/-- C1 counterexample: in `_convert_tree`, an attribute with neither an
active template target nor an annotation is not merely skipped — the
`return None` aborts the walk of the whole instance.  With the instance
`{unmapped, temperature}` whose second attribute is annotated, nothing is
written (first conjunct), although the same annotated attribute alone is
written to its target (second conjunct): a later mapped attribute of the
same instance is not processed, contradicting the claim. -/
theorem convert_tree_unmapped_abort_cex :
    _convert_tree (fun _ _ => true) "A" [] 20
        [FieldSlot.mk "unmapped" none none [] (.prim (.pstr "x")),
         FieldSlot.mk "temperature" none none [("A", "libA.Sample.temp")] (.prim (.pint 25))]
        0 "" [] [("Sample", sampleTree)]
      = .ok [("Sample", sampleTree)]
    ∧ _convert_tree (fun _ _ => true) "A" [] 20
        [FieldSlot.mk "temperature" none none [("A", "libA.Sample.temp")] (.prim (.pint 25))]
        0 "" [] [("Sample", sampleTree)]
      = .ok [("Sample", GNode.cls "Sample"
            [GNode.attr "temp" [(.key ".0", .prim (.pint 25))] []])] :=
  ⟨rfl, rfl⟩

/-- C1 (amended): when an attribute's value falls into Case C and has
neither an active template target nor an annotation for the active
option, the conversion of the current instance stops there, silently and
without error — that attribute and all remaining attributes of the same
instance are skipped (`return None`), whatever they are. -/
theorem convert_tree_unmapped_stops_silently
    (rmatch : String → String → Bool) (option : String) (template : Template)
    (fuel objIndex : Nat) (attrPath : String) (target : List (String × String))
    (roots : Roots) (f : FieldSlot) (rest : List FieldSlot)
    (hA : (!f.value.isList && f.typeRef.isSome) = false)
    (hB : (f.value.isList && _only_classes f.value.elems) = false)
    (hT : alookup target f.name = none)
    (hO : alookup f.extra option = none) :
    _convert_tree rmatch option template (fuel + 1) (f :: rest) objIndex attrPath target roots
      = .ok roots := by
  simp [_convert_tree, hA, hB, hT, hO]

/-- Witness for C1 (amended): a concrete unmapped primitive attribute
followed by an arbitrary second field, with the hypotheses discharged by
computation. -/
theorem convert_tree_unmapped_stops_silently_witness :
    _convert_tree (fun _ _ => true) "A" [] 5
        [FieldSlot.mk "u" none none [] (.prim .pnone),
         FieldSlot.mk "w" none none [] (.prim .pnone)]
        0 "" [] [("Sample", sampleTree)]
      = .ok [("Sample", sampleTree)] :=
  convert_tree_unmapped_stops_silently (fun _ _ => true) "A" [] 4 0 "" [] _ _ _
    (by decide) (by decide) (by decide) (by decide)

/-! ## C3 -/

/-- C3 counterexample: a flat attribute-to-target-path map entry at the
looked-up path is not used as the active targets — `_check_matching_target`
iterates it as a rule list and fails with a TypeError (string key indexed
with `["attribute"]`), contradicting "uses that map directly … without
error". -/
theorem check_matching_target_flat_map_cex :
    _check_matching_target (fun _ _ => true) (.model []) "p"
        [("p", .dictEntry [("a", "lib.R.x")] none)]
      = .error .typeError :=
  rfl

/-- C3 (amended): a flat attribute-to-target-path map entry is never used
as active targets: every non-falsy mapping entry at the current path makes
`_check_matching_target` raise a TypeError; only a missing or empty entry
yields empty active targets. -/
theorem check_matching_target_flat_map_type_error
    (rmatch : String → String → Bool) (obj : Value) (path : String) (template : Template)
    (pairs : List (String × String)) (tgs : Option (List (String × String)))
    (hentry : alookup template path = some (.dictEntry pairs tgs))
    (hne : (TVal.dictEntry pairs tgs).pyFalsy = false) :
    _check_matching_target rmatch obj path template = .error .typeError := by
  simp [_check_matching_target, hentry, hne]

/-- Witness for C3 (amended). -/
theorem check_matching_target_flat_map_type_error_witness :
    _check_matching_target (fun _ _ => false) (.prim .pnone) "q"
        [("q", .dictEntry [("f", "m.R.y")] none)]
      = .error .typeError :=
  check_matching_target_flat_map_type_error (fun _ _ => false) (.prim .pnone) "q"
    [("q", .dictEntry [("f", "m.R.y")] none)] [("f", "m.R.y")] none
    (by decide) (by decide)

/-! ## C4 -/

/-- C4 counterexample: a target path appearing in a flat
attribute-to-target-path map entry does **not** get a guide tree built
for its root (first conjunct: extraction yields no roots), although the
very same targets mapping would build the `Sample` tree when handed to
`_get_target_roots` (second conjunct) — contradicting "whether the path
occurs in a flat … map entry or inside a conditional rule's targets
map". -/
theorem extract_roots_from_template_flat_skipped_cex :
    _extract_roots_from_template envSample 10
        [("p", .dictEntry [("a", "libA.Sample.temp")] none)] = .ok []
    ∧ _get_target_roots envSample 10 [("a", "libA.Sample.temp")]
        = .ok [("Sample", sampleTree)] :=
  ⟨rfl, rfl⟩

/-- The entries `_extract_roots_from_template` does not skip: everything
except a mapping entry without a `targets` key. -/
def hasTargetsEntry : (String × TVal) → Bool
  | (_, .dictEntry _ none) => false
  | _ => true

/-- Flat mapping entries (no `targets` key) are invisible to the entry
loop of `_extract_roots_from_template`, whatever the accumulator. -/
theorem ertEntries_filter (env : SchemaEnv) (fuel : Nat) :
    ∀ (tpl : List (String × TVal)) (acc : Roots),
      _ertEntries env fuel tpl acc
        = _ertEntries env fuel (tpl.filter hasTargetsEntry) acc := by
  intro tpl
  induction tpl with
  | nil => intro acc; rfl
  | cons e rest ih =>
      intro acc
      match e with
      | (p, .dictEntry pairs none) =>
          simpa [_ertEntries, List.filter, hasTargetsEntry] using ih acc
      | (p, .dictEntry pairs (some ts)) =>
          cases h : _get_target_roots env fuel ts <;>
            simp [_ertEntries, List.filter, hasTargetsEntry, h, ih]
      | (p, .listEntry rules) =>
          cases h : _ertRules env fuel rules acc <;>
            simp [_ertEntries, List.filter, hasTargetsEntry, h, ih]

/-- C4 (amended): root discovery from the template builds guide trees only
for target paths appearing in `targets` mappings: a flat
attribute-to-target-path map entry contributes nothing (the extraction
result equals that of the template with all such entries removed), while
a rule's `targets` mapping contributes exactly the roots
`_get_target_roots` builds from it. -/
theorem extract_roots_from_template_targets_only
    (env : SchemaEnv) (fuel : Nat) (template : Template) :
    _extract_roots_from_template env fuel template
      = _extract_roots_from_template env fuel (template.filter hasTargetsEntry)
    ∧ ∀ (p : String) (ak pat : Option String) (ts : List (String × String)),
        _extract_roots_from_template env fuel [(p, .listEntry [⟨ak, pat, some ts⟩])]
          = (_get_target_roots env fuel ts).map (fun rs => dictUpdate [] rs) := by
  constructor
  · exact ertEntries_filter env fuel template []
  · intro p ak pat ts
    cases h : _get_target_roots env fuel ts <;>
      simp [_extract_roots_from_template, _ertEntries, _ertRules, h, Except.map, Bind.bind,
        Except.bind]

/-! ## C5 -/

/-- C5 counterexample: a given-but-missing template file is **not**
treated as an empty template — `open(path)` raises FileNotFoundError and
`convert_data_model` fails, contradicting the claim. -/
theorem convert_data_model_missing_template_cex :
    convert_data_model envSample (fun _ _ => true) ⟨[]⟩ 20 measurementSample "A"
        (some "links.yaml") ⟨[]⟩
      = .error (.fileNotFoundError "links.yaml") :=
  rfl

/-- C5 (amended): when no template path is given, `convert_data_model`
proceeds with an empty template using annotations only (the file system is
never consulted: any two file systems give the same result); but when a
template path is given and the file is missing, the conversion fails with
FileNotFoundError instead of treating the template as empty. -/
theorem convert_data_model_template_handling
    (env : SchemaEnv) (rmatch : String → String → Bool) (fs fs' : FileSys)
    (fuel : Nat) (obj : List FieldSlot) (option : String) (st : PyState) :
    convert_data_model env rmatch fs fuel obj option none st
      = convert_data_model env rmatch fs' fuel obj option none st
    ∧ ∀ p, alookup fs.files p = none →
        convert_data_model env rmatch fs fuel obj option (some p) st
          = .error (.fileNotFoundError p) := by
  constructor
  · rfl
  · intro p hp
    simp [convert_data_model, loadTemplate, hp, Bind.bind, Except.bind]

/-- Witness for C5 (amended). -/
theorem convert_data_model_template_handling_witness :
    convert_data_model envSample (fun _ _ => true) ⟨[("x.yaml", [])]⟩ 7 measurementSample "A"
        (some "nofile.yaml") ⟨[]⟩
      = .error (.fileNotFoundError "nofile.yaml") :=
  (convert_data_model_template_handling envSample (fun _ _ => true) ⟨[("x.yaml", [])]⟩ ⟨[]⟩ 7
      measurementSample "A" ⟨[]⟩).2 "nofile.yaml" (by decide)

/-! ## C10 -/

/-- C10: `convert_data_model` is not a deterministic function of its
arguments across calls.  (i) On a fresh interpreter state, converting an
annotation-free source yields no roots.  (ii) Converting an annotated
source stores the discovered root in the mutable dictionary bound to
`_extract_roots`' `roots` default parameter.  (iii) The *identical*
annotation-free call of (i), run after (ii), now returns the stale root.
(iv) A stale annotation-derived root of the same name also overrides the
current run's template-derived root in the `{**template, **extracted}`
merge. -/
theorem convert_data_model_stateful_roots :
    convert_data_model envSample (fun _ _ => true) ⟨[]⟩ 20 [] "A" none ⟨[]⟩
      = .ok ([], ⟨[]⟩)
    ∧ (convert_data_model envSample (fun _ _ => true) ⟨[]⟩ 20 measurementSample "A" none
        ⟨[]⟩).map Prod.snd
      = .ok ⟨[("Sample", sampleTree)]⟩
    ∧ convert_data_model envSample (fun _ _ => true) ⟨[]⟩ 20 [] "A" none
        ⟨[("Sample", sampleTree)]⟩
      = .ok ([("Sample", sampleTree)], ⟨[("Sample", sampleTree)]⟩)
    ∧ convert_data_model envSample (fun _ _ => true) ⟨[("t.yaml", sampleRuleTemplate)]⟩ 20 []
        "A" (some "t.yaml") ⟨[("Sample", markerTree)]⟩
      = .ok ([("Sample", markerTree)], ⟨[("Sample", markerTree)]⟩) :=
  ⟨rfl, rfl, rfl, rfl⟩

/-! ## C6 -/

/-- A rule dictionary is well-formed for a candidate object when it has
`attribute` and `pattern` keys and the object carries the match
attribute. -/
def ruleWF (obj : Value) (r : RuleDict) : Bool :=
  match r.attributeKey, r.pattern with
  | some a, some _ => (Value.getattrE obj a).toOption.isSome
  | _, _ => false

/-- Whether a rule matches the candidate object: the rule's pattern
regex-matches the string form of the object's match attribute. -/
def ruleMatches (rmatch : String → String → Bool) (obj : Value) (r : RuleDict) : Bool :=
  match r.attributeKey, r.pattern with
  | some a, some p =>
      match (Value.getattrE obj a).toOption with
      | some mv => rmatch p mv.pyStr
      | none => false
  | _, _ => false

/-- On well-formed rules, the collection loop of `_check_matching_target`
returns exactly the matching rules, in order. -/
theorem collectMatches_filter (rmatch : String → String → Bool) (obj : Value) :
    ∀ rules : List RuleDict, rules.all (ruleWF obj) = true →
      collectMatches rmatch obj rules = .ok (rules.filter (ruleMatches rmatch obj)) := by
  intro rules
  induction rules with
  | nil => intro _; rfl
  | cons r rest ih =>
      intro h
      rw [List.all_cons, Bool.and_eq_true] at h
      obtain ⟨hr, hrest⟩ := h
      cases ha : r.attributeKey with
      | none => simp [ruleWF, ha] at hr
      | some a =>
          cases hp : r.pattern with
          | none => simp [ruleWF, ha, hp] at hr
          | some p =>
              cases hg : Value.getattrE obj a with
              | error e => simp [ruleWF, ha, hp, hg, Except.toOption] at hr
              | ok mv =>
                  simp only [collectMatches, ha, hp, hg, ih hrest, List.filter,
                    ruleMatches, Except.toOption, Bind.bind, Except.bind]
                  cases hm : rmatch p mv.pyStr <;> simp [hm]

/-- C6: when the template entry at the current path is a rule list of
well-formed rules, each rule is matched by regex against the string form
of the candidate's match attribute; zero matching rules yield empty
active targets, exactly one matching rule yields that rule's targets,
and more than one matching rule aborts with the ambiguous-mapping error
carrying the path and the match count. -/
theorem check_matching_target_rule_list_semantics
    (rmatch : String → String → Bool) (obj : Value) (path : String) (template : Template)
    (rules ms : List RuleDict)
    (hentry : alookup template path = some (.listEntry rules))
    (hwf : rules.all (ruleWF obj) = true)
    (hms : ms = rules.filter (ruleMatches rmatch obj)) :
    (ms = [] → _check_matching_target rmatch obj path template = .ok [])
    ∧ (∀ r ts, ms = [r] → r.targets = some ts →
        _check_matching_target rmatch obj path template = .ok ts)
    ∧ (2 ≤ ms.length →
        _check_matching_target rmatch obj path template = .error (.valueError path ms.length)) := by
  have hcol := collectMatches_filter rmatch obj rules hwf
  cases rules with
  | nil =>
      subst hms
      refine ⟨fun _ => ?_, fun r ts h1 _ => by simp at h1, fun h2 => by simp at h2⟩
      simp [_check_matching_target, hentry, TVal.pyFalsy]
  | cons r0 rest =>
      have hfalsy : (TVal.listEntry (r0 :: rest)).pyFalsy = false := rfl
      refine ⟨?_, ?_, ?_⟩
      · intro h0
        simp [_check_matching_target, hentry, hfalsy, hcol, ← hms, h0, Bind.bind, Except.bind]
      · intro r ts h1 ht
        simp [_check_matching_target, hentry, hfalsy, hcol, ← hms, h1, ht, Bind.bind, Except.bind]
      · intro h2
        have hgt : ms.length > 1 := h2
        simp only [_check_matching_target, hentry, hfalsy, hcol, ← hms, Bind.bind, Except.bind,
          if_pos hgt]
        simp [hgt]

/-- Witness for C6 (the spec's ambiguity scenario): two rules on `kind`
whose patterns both match `"glass"` make the conversion fail with the
path and match count `2`. -/
theorem check_matching_target_rule_list_semantics_witness :
    _check_matching_target (fun p s => p == s)
        (.model [.mk "kind" none none [] (.prim (.pstr "glass"))]) "sample"
        [("sample", .listEntry
          [⟨some "kind", some "glass", some [("a", "libA.Sample.temp")]⟩,
           ⟨some "kind", some "glass", some [("b", "libA.Sample.temp")]⟩])]
      = .error (.valueError "sample" 2) :=
  (check_matching_target_rule_list_semantics (fun p s => p == s)
      (.model [.mk "kind" none none [] (.prim (.pstr "glass"))]) "sample"
      [("sample", .listEntry
        [⟨some "kind", some "glass", some [("a", "libA.Sample.temp")]⟩,
         ⟨some "kind", some "glass", some [("b", "libA.Sample.temp")]⟩])]
      [⟨some "kind", some "glass", some [("a", "libA.Sample.temp")]⟩,
       ⟨some "kind", some "glass", some [("b", "libA.Sample.temp")]⟩]
      [⟨some "kind", some "glass", some [("a", "libA.Sample.temp")]⟩,
       ⟨some "kind", some "glass", some [("b", "libA.Sample.temp")]⟩]
      (by decide) (by decide) (by decide)).2.2 (by decide)

/-! ## C7 -/

/-- C7: in Case C, the template target wins over the annotation.  First
conjunct: when the attribute has **both** an active template target and an
annotation for the active option, the value is written through the
template target's path with the numeric `obj_index` as write key — the
annotation path `apath` is bound but never consulted, and the result is
the root registry updated at the template target's root.  Second
conjunct: with only an annotation, the value is written through the
annotation's path with the composite string key
`f"{attr_path}.{obj_index}"`. -/
theorem convert_tree_case_c_precedence
    (rmatch : String → String → Bool) (option : String) (template : Template)
    (fuel objIndex : Nat) (attrPath : String) (target : List (String × String))
    (roots : Roots) (f : FieldSlot)
    (hA : (!f.value.isList && f.typeRef.isSome) = false)
    (hB : (f.value.isList && _only_classes f.value.elems) = false) :
    (∀ tpath apath root nodePath node node',
        alookup target f.name = some tpath →
        alookup f.extra option = some apath →
        splitTargetPath tpath = .ok (root, nodePath) →
        alookup roots root = some node →
        _assign_primitive_data_to_node (fuel + 1) nodePath node f.value (.idx objIndex)
          = .ok node' →
        _convert_tree rmatch option template (fuel + 2) [f] objIndex attrPath target roots
          = .ok (dictInsert roots root node'))
    ∧ (∀ apath root nodePath node node',
        alookup target f.name = none →
        alookup f.extra option = some apath →
        splitTargetPath apath = .ok (root, nodePath) →
        alookup roots root = some node →
        _assign_primitive_data_to_node (fuel + 1) nodePath node f.value
            (.key (attrPath ++ "." ++ toString objIndex)) = .ok node' →
        _convert_tree rmatch option template (fuel + 2) [f] objIndex attrPath target roots
          = .ok (dictInsert roots root node')) := by
  constructor
  · intro tpath apath root nodePath node node' hT hO hsplit hroot hassign
    simp [_convert_tree, hA, hB, hT, hO, hsplit, hroot, hassign, Bind.bind, Except.bind]
  · intro apath root nodePath node node' hT hO hsplit hroot hassign
    simp [_convert_tree, hA, hB, hT, hO, hsplit, hroot, hassign, Bind.bind, Except.bind]

/-- Witness for C7: `temperature` carries both a template target
(`libA.Sample.temp`, via `target`) and an annotation (`libB.Other.x`);
the value lands in `Sample`'s tree at the numeric key `0`, proving by the
applied theorem that the annotation is bypassed. -/
theorem convert_tree_case_c_precedence_witness :
    _convert_tree (fun _ _ => true) "A" [] 5
        [FieldSlot.mk "temperature" none none [("A", "libB.Other.x")] (.prim (.pint 25))]
        0 "" [("temperature", "libA.Sample.temp")] [("Sample", sampleTree)]
      = .ok [("Sample", GNode.cls "Sample"
            [GNode.attr "temp" [(.idx 0, .prim (.pint 25))] []])] :=
  (convert_tree_case_c_precedence (fun _ _ => true) "A" [] 3 0 ""
      [("temperature", "libA.Sample.temp")] [("Sample", sampleTree)]
      (FieldSlot.mk "temperature" none none [("A", "libB.Other.x")] (.prim (.pint 25)))
      (by decide) (by decide)).1
    "libA.Sample.temp" "libB.Other.x" "Sample" ["temp"] sampleTree
    (GNode.cls "Sample" [GNode.attr "temp" [(.idx 0, .prim (.pint 25))] []])
    (by decide) (by decide) (by decide) rfl rfl

/-! ## C2 -/

/-- Correspondence between `findall` and the single-pass search-and-update
of `_assign_primitive_data_to_node`: given the pre-order match list of a
(sub)tree, the search reports `notFound` exactly on an empty match list,
updates the **first** match in place when it is an AttributeNode (the
re-run `findall` then sees the updated node, with the other matches
unchanged), and reports `foundCls` when the first match is a ClassNode. -/
theorem searchAssign_findall_spec (v : Value) (idx : WKey) (path : List String) :
    ∀ fuel : Nat,
      (∀ g chain ms, findallG fuel g chain path = some ms →
        (ms = [] → searchAssign v idx path fuel g chain = .notFound)
        ∧ (∀ n vals cs rest, ms = GNode.attr n vals cs :: rest →
            ∃ g', searchAssign v idx path fuel g chain = .found g'
              ∧ findallG fuel g' chain path
                  = some (GNode.attr n (dictInsert vals idx v) cs :: rest))
        ∧ (∀ n cs rest, ms = GNode.cls n cs :: rest →
            searchAssign v idx path fuel g chain = .foundCls))
      ∧
      (∀ gs chain ms, findallGList fuel gs chain path = some ms →
        (ms = [] → searchAssignList v idx path fuel gs chain = .notFound)
        ∧ (∀ n vals cs rest, ms = GNode.attr n vals cs :: rest →
            ∃ gs', searchAssignList v idx path fuel gs chain = .found gs'
              ∧ findallGList fuel gs' chain path
                  = some (GNode.attr n (dictInsert vals idx v) cs :: rest))
        ∧ (∀ n cs rest, ms = GNode.cls n cs :: rest →
            searchAssignList v idx path fuel gs chain = .foundCls)) := by
  intro fuel
  induction fuel with
  | zero =>
      constructor
      · intro g chain ms h; simp [findallG] at h
      · intro gs chain ms h; simp [findallGList] at h
  | succ fuel ih =>
      obtain ⟨ihN, ihL⟩ := ih
      constructor
      · intro g chain ms h
        cases g with
        | cls nm cs =>
            rw [findallG] at h
            simp only [GNode.children, GNode.name] at h
            rcases Option.map_eq_some'.mp h with ⟨tl, htl, hms⟩
            by_cases hp : _search_by_path path (chain ++ [nm]) = true
            · -- the node itself is the first match, a ClassNode
              rw [if_pos hp, List.singleton_append] at hms
              subst hms
              refine ⟨fun h0 => by simp at h0, fun n vals cs' rest hattr => by simp at hattr,
                fun n cs' rest _ => ?_⟩
              simp [searchAssign, hp]
            · rw [if_neg hp, List.nil_append] at hms
              subst hms
              obtain ⟨hL0, hL1, hL2⟩ := ihL cs (chain ++ [nm]) tl htl
              refine ⟨fun h0 => ?_, fun n vals cs' rest hattr => ?_, fun n cs' rest hcls => ?_⟩
              · simp [searchAssign, hp, hL0 h0]
              · obtain ⟨cs'', hfound, hre⟩ := hL1 n vals cs' rest hattr
                refine ⟨.cls nm cs'', ?_, ?_⟩
                · simp [searchAssign, hp, hfound]
                · rw [findallG]
                  simp only [GNode.children, GNode.name]
                  rw [if_neg hp, hre]
                  rfl
              · simp [searchAssign, hp, hL2 n cs' rest hcls]
        | attr nm vals0 cs =>
            rw [findallG] at h
            simp only [GNode.children, GNode.name] at h
            rcases Option.map_eq_some'.mp h with ⟨tl, htl, hms⟩
            by_cases hp : _search_by_path path (chain ++ [nm]) = true
            · rw [if_pos hp, List.singleton_append] at hms
              subst hms
              refine ⟨fun h0 => by simp at h0, fun n vals cs' rest hattr => ?_,
                fun n cs' rest hcls => by simp at hcls⟩
              injection hattr with h1 h2
              injection h1 with hn hv hc
              subst hn; subst hv; subst hc; subst h2
              refine ⟨.attr nm (dictInsert vals0 idx v) cs, ?_, ?_⟩
              · simp [searchAssign, hp]
              · rw [findallG]
                simp only [GNode.children, GNode.name]
                rw [if_pos hp, htl]
                rfl
            · rw [if_neg hp, List.nil_append] at hms
              subst hms
              obtain ⟨hL0, hL1, hL2⟩ := ihL cs (chain ++ [nm]) tl htl
              refine ⟨fun h0 => ?_, fun n vals cs' rest hattr => ?_, fun n cs' rest hcls => ?_⟩
              · simp [searchAssign, hp, hL0 h0]
              · obtain ⟨cs'', hfound, hre⟩ := hL1 n vals cs' rest hattr
                refine ⟨.attr nm vals0 cs'', ?_, ?_⟩
                · simp [searchAssign, hp, hfound]
                · rw [findallG]
                  simp only [GNode.children, GNode.name]
                  rw [if_neg hp, hre]
                  rfl
              · simp [searchAssign, hp, hL2 n cs' rest hcls]
      · intro gs chain ms h
        cases gs with
        | nil =>
            rw [findallGList] at h
            injection h with h
            subst h
            exact ⟨fun _ => rfl, fun n vals cs' rest hattr => by simp at hattr,
              fun n cs' rest hcls => by simp at hcls⟩
        | cons c cs =>
            rw [findallGList] at h
            rcases Option.bind_eq_some.mp h with ⟨a, ha, h2⟩
            rcases Option.bind_eq_some.mp h2 with ⟨b, hb, h3⟩
            injection h3 with h3
            subst h3
            obtain ⟨hN0, hN1, hN2⟩ := ihN c chain a ha
            obtain ⟨hL0, hL1, hL2⟩ := ihL cs chain b hb
            refine ⟨fun h0 => ?_, fun n vals cs' rest hattr => ?_, fun n cs' rest hcls => ?_⟩
            · rcases List.append_eq_nil.mp h0 with ⟨ha0, hb0⟩
              simp [searchAssignList, hN0 ha0, hL0 hb0]
            · cases a with
              | nil =>
                  simp only [List.nil_append] at hattr
                  obtain ⟨cs'', hfound, hre⟩ := hL1 n vals cs' rest hattr
                  refine ⟨c :: cs'', ?_, ?_⟩
                  · simp [searchAssignList, hN0 rfl, hfound]
                  · rw [findallGList, ha, hre]; rfl
              | cons a0 atl =>
                  cases a0 with
                  | cls n0 cs0 =>
                      rw [List.cons_append] at hattr
                      simp at hattr
                  | attr n0 vals0 cs0 =>
                      rw [List.cons_append] at hattr
                      injection hattr with h1 h2
                      obtain ⟨g', hfound, hre⟩ := hN1 n vals cs' atl (by rw [h1])
                      refine ⟨g' :: cs, ?_, ?_⟩
                      · simp [searchAssignList, hfound]
                      · rw [findallGList, hre, hb]
                        simp [h2]
            · cases a with
              | nil =>
                  simp only [List.nil_append] at hcls
                  simp [searchAssignList, hN0 rfl, hL2 n cs' rest hcls]
              | cons a0 atl =>
                  cases a0 with
                  | attr n0 vals0 cs0 =>
                      rw [List.cons_append] at hcls
                      simp at hcls
                  | cls n0 cs0 =>
                      rw [List.cons_append] at hcls
                      injection hcls with h1 h2
                      simp [searchAssignList, hN2 n cs' atl (by rw [h1])]

/-- The fixture tree for C2: the attribute node `x` and its nested
ClassNode child `Sub` have the same lowercase-filtered ancestor chain
`["x"]`, so the decomposed path `x` matches **two** nodes. -/
def treeTwoMatches : GNode :=
  .cls "Root" [.attr "x" [] [.cls "Sub" [.attr "y" [] []]]]

/-- C2 counterexample: the decomposed node path `["x"]` matches two nodes
of `treeTwoMatches` (first conjunct), yet
`_assign_primitive_data_to_node` raises no error — it writes to the first
match and succeeds (second conjunct), contradicting "a fatal error is
raised … when more than one node matches". -/
theorem assign_multiple_matches_no_error_cex :
    (findallG 10 treeTwoMatches [] ["x"]).map List.length = some 2
    ∧ _assign_primitive_data_to_node 10 ["x"] treeTwoMatches (.prim .pnone) (.idx 0)
        = .ok (.cls "Root" [.attr "x" [(.idx 0, .prim .pnone)] [.cls "Sub" [.attr "y" [] []]]]) :=
  ⟨rfl, rfl⟩

/-- C2 (amended): `_assign_primitive_data_to_node` locates the nodes whose
lowercase-initial ancestor-name chain equals the decomposed path, in
pre-order; a fatal error (IndexError) is raised only when **zero** nodes
match.  When one **or more** nodes match, no multiplicity error is
raised: if the first match is an AttributeNode the value is stored in its
dictionary at the write key, overwriting any prior entry there (the other
matches are ignored); only a first match that is a ClassNode fails (its
`value` attribute is missing). -/
theorem assign_first_match_semantics
    (fuel : Nat) (path : List String) (node : GNode) (v : Value) (idx : WKey)
    (ms : List GNode) (hms : findallG fuel node [] path = some ms) :
    (ms = [] → _assign_primitive_data_to_node fuel path node v idx = .error .indexError)
    ∧ (∀ n vals cs rest, ms = GNode.attr n vals cs :: rest →
        ∃ g', _assign_primitive_data_to_node fuel path node v idx = .ok g'
          ∧ observeAt fuel g' path = some (dictInsert vals idx v))
    ∧ (∀ n cs rest, ms = GNode.cls n cs :: rest →
        _assign_primitive_data_to_node fuel path node v idx = .error (.attributeError "value")) := by
  obtain ⟨hN0, hN1, hN2⟩ := (searchAssign_findall_spec v idx path fuel).1 node [] ms hms
  refine ⟨fun h0 => ?_, fun n vals cs rest hattr => ?_, fun n cs rest hcls => ?_⟩
  · simp [_assign_primitive_data_to_node, hN0 h0]
  · obtain ⟨g', hfound, hre⟩ := hN1 n vals cs rest hattr
    refine ⟨g', ?_, ?_⟩
    · simp [_assign_primitive_data_to_node, hfound]
    · simp [observeAt, hre, GNode.valueDict]
  · simp [_assign_primitive_data_to_node, hN2 n cs rest hcls]

/-- Witness for C2 (amended): applied at the two-match fixture — more
than one match, no error, value stored at the first match's key. -/
theorem assign_first_match_semantics_witness :
    ∃ g', _assign_primitive_data_to_node 10 ["x"] treeTwoMatches (.prim .pnone) (.idx 0)
        = .ok g'
      ∧ observeAt 10 g' ["x"] = some (dictInsert [] (.idx 0) (.prim .pnone)) :=
  (assign_first_match_semantics 10 ["x"] treeTwoMatches (.prim .pnone) (.idx 0)
      [.attr "x" [] [.cls "Sub" [.attr "y" [] []]], .cls "Sub" [.attr "y" [] []]]
      rfl).2.1 "x" [] [.cls "Sub" [.attr "y" [] []]] [.cls "Sub" [.attr "y" [] []]] rfl

/-! ## C8 -/

/-- Inserting a fresh key into a Python dict appends it at the end. -/
theorem dictInsert_fresh {κ α : Type} [DecidableEq κ] :
    ∀ (d : List (κ × α)) (k : κ) (v : α), alookup d k = none →
      dictInsert d k v = d ++ [(k, v)] := by
  intro d
  induction d with
  | nil => intro k v _; rfl
  | cons kv rest ih =>
      intro k v h
      rw [alookup] at h
      by_cases hk : kv.1 = k
      · simp [hk] at h
      · rw [if_neg hk] at h
        cases kv
        simp only [dictInsert, List.cons_append]
        rw [if_neg hk, ih _ _ h]

/-- Looking a key up in a concatenation of dicts. -/
theorem alookup_append {κ α : Type} [DecidableEq κ] :
    ∀ (d e : List (κ × α)) (k : κ),
      alookup (d ++ e) k = ((alookup d k).rec (alookup e k) (fun v => some v)) := by
  intro d
  induction d with
  | nil => intro e k; rfl
  | cons kv rest ih =>
      intro e k
      cases kv with
      | mk k' v' =>
          by_cases hk : k' = k
          · simp [alookup, hk]
          · simp only [List.cons_append, alookup, if_neg hk]
            exact ih e k

/-- One sequence element of the C8 family: a model instance with a single
primitive attribute `k`. -/
def seqElem (v : PVal) : Value := .model [.mk "k" none none [] (.prim v)]

/-- The C8 template: the shared child path `items` carries one rule
matching attribute `k` against `pat` and targeting `lib.R.x`. -/
def seqTemplate (pat : String) : Template :=
  [("items", .listEntry [⟨some "k", some pat, some [("k", "lib.R.x")]⟩])]

/-- The C8 source field: a `list`-wrapped field `items` holding the
elements. -/
def seqField (vs : List PVal) : FieldSlot :=
  .mk "items" none (some "list") [] (.vlist (vs.map seqElem))

/-- The C8 target registry: a root `R` whose leaf AttributeNode `x`
currently holds `vals`. -/
def leafRoots (vals : List (WKey × Value)) : Roots :=
  [("R", .cls "R" [.attr "x" vals []])]

/-- The entries the element loop writes: element `j` (counting from the
start offset) at numeric write key `offset + j`, in source order. -/
def seqEntries : Nat → List PVal → List (WKey × Value)
  | _, [] => []
  | i, v :: vs => (.idx i, .prim v) :: seqEntries (i + 1) vs

/-- Converting a single C8 element's fields with an active target writes
its value at the numeric write key `j`. -/
theorem convert_one_elem
    (rmatch : String → String → Bool) (option : String) (template : Template)
    (v : PVal) (j : Nat) (attrPath : String) (fuel : Nat)
    (vals : List (WKey × Value)) :
    _convert_tree rmatch option template (fuel + 4)
        [.mk "k" none none [] (.prim v)] j attrPath [("k", "lib.R.x")] (leafRoots vals)
      = .ok (leafRoots (dictInsert vals (.idx j) (.prim v))) := by
  show _convert_tree rmatch option template (fuel + 3 + 1) _ _ _ _ _ = _
  simp [_convert_tree, FieldSlot.value, FieldSlot.typeRef, Value.isList, Value.elems,
    _only_classes, alookup, splitTargetPath, pySplitDot, splitDotAux,
    _assign_primitive_data_to_node, leafRoots, FieldSlot.name, FieldSlot.extra,
    Bind.bind, Except.bind, searchAssign, searchAssignList, _search_by_path,
    isLowerInit, GNode.name, dictInsert]

theorem seqEntries_length : ∀ (vs : List PVal) (i : Nat), (seqEntries i vs).length = vs.length
  | [], _ => rfl
  | _ :: vs, i => by simp [seqEntries, seqEntries_length vs (i + 1)]

theorem seqEntries_keys : ∀ (vs : List PVal) (i : Nat),
    (seqEntries i vs).map Prod.fst = (List.range' i vs.length).map WKey.idx
  | [], _ => rfl
  | _ :: vs, i => by
      simp [seqEntries, List.range'_succ, seqEntries_keys vs (i + 1)]

theorem seqEntries_values : ∀ (vs : List PVal) (i : Nat),
    (seqEntries i vs).map Prod.snd = vs.map Value.prim
  | [], _ => rfl
  | _ :: vs, i => by simp [seqEntries, seqEntries_values vs (i + 1)]


/-- The element loop of Case B on the C8 family: starting at element
offset `i` with the leaf dictionary holding `vals` (whose numeric keys
are all below `i`), each element re-resolves the shared child path
against the rule and is written at write key `0 + i + j`, appending the
elements' values in source order; the loop's final `target` is the last
element's resolution. -/
theorem convert_elems_seq
    (rmatch : String → String → Bool) (option pat : String) :
    ∀ (vs : List PVal) (i fuel : Nat) (vals : List (WKey × Value))
      (tgt : List (String × String)),
      vs.length + 5 ≤ fuel →
      (∀ v ∈ vs, rmatch pat v.pyStr = true) →
      (∀ j, i ≤ j → alookup vals (WKey.idx j) = none) →
      _convert_elems rmatch option (seqTemplate pat) fuel (vs.map seqElem) i 0 "items" tgt
          (leafRoots vals)
        = .ok (leafRoots (vals ++ seqEntries i vs),
               if vs.isEmpty then tgt else [("k", "lib.R.x")]) := by
  intro vs
  induction vs with
  | nil =>
      intro i fuel vals tgt hfuel _ _
      obtain ⟨F, rfl⟩ : ∃ F, fuel = F + 1 := ⟨fuel - 1, by omega⟩
      simp [_convert_elems, leafRoots, seqEntries]
  | cons v vs ih =>
      intro i fuel vals tgt hfuel hm hfresh
      have hlen : vs.length + 5 ≤ fuel - 1 := by simp at hfuel; omega
      obtain ⟨F4, rfl⟩ : ∃ F4, fuel = F4 + 4 + 1 := ⟨fuel - 5, by simp at hfuel; omega⟩
      have hchk : _check_matching_target rmatch
          (Value.model [FieldSlot.mk "k" none none [] (Value.prim v)]) "items"
          (seqTemplate pat) = .ok [("k", "lib.R.x")] := by
        simp [_check_matching_target, seqTemplate, alookup, TVal.pyFalsy, collectMatches,
          Value.getattrE, getattrSlots, FieldSlot.name, FieldSlot.value, Value.pyStr,
          hm v (List.mem_cons_self v vs), Bind.bind, Except.bind]
      have hone := convert_one_elem rmatch option (seqTemplate pat) v i "items" F4 vals
      rw [dictInsert_fresh vals _ _ (hfresh i (Nat.le_refl i))] at hone
      have hrec := ih (i + 1) (F4 + 4) (vals ++ [(WKey.idx i, Value.prim v)]) [("k", "lib.R.x")]
        (by simp at hlen ⊢; omega)
        (fun w hw => hm w (List.mem_cons_of_mem v hw))
        (fun j hj => by
          rw [alookup_append, hfresh j (by omega)]
          simp [alookup]
          intro hij
          omega)
      simp only [List.map_cons, _convert_elems, seqElem, Bind.bind, Except.bind, hchk,
        Value.modelFieldsE, Nat.zero_add, hone, hrec]
      simp [seqEntries, List.append_assoc]

/-- C8: converting a `list`-wrapped field whose `n` elements are all
model instances recurses into element `i` with write index
`obj_index + i`, re-resolving the shared child path's targets per
element; afterwards the leaf AttributeNode reachable through the field
holds exactly `n` entries, at the numeric indices `0..n-1`, holding the
elements' values in source element order. -/
theorem convert_tree_sequence_multiplicity
    (rmatch : String → String → Bool) (option pat : String) (vs : List PVal) (fuel : Nat)
    (hfuel : vs.length + 6 ≤ fuel)
    (hm : ∀ v ∈ vs, rmatch pat v.pyStr = true) :
    _convert_tree rmatch option (seqTemplate pat) fuel [seqField vs] 0 "" [] (leafRoots [])
      = .ok (leafRoots (seqEntries 0 vs))
    ∧ (seqEntries 0 vs).length = vs.length
    ∧ (seqEntries 0 vs).map Prod.fst = (List.range vs.length).map WKey.idx
    ∧ (seqEntries 0 vs).map Prod.snd = vs.map Value.prim := by
  refine ⟨?_, seqEntries_length vs 0, ?_, seqEntries_values vs 0⟩
  · obtain ⟨F1, rfl⟩ : ∃ F1, fuel = F1 + 1 + 1 := ⟨fuel - 2, by omega⟩
    have honly : _only_classes (Value.elems (Value.vlist (vs.map seqElem))) = true := by
      simp only [_only_classes, Value.elems, List.all_eq_true]
      intro x hx
      rcases List.mem_map.mp hx with ⟨w, _, rfl⟩
      rfl
    have helems := convert_elems_seq rmatch option pat vs 0 (F1 + 1) [] []
      (by omega) hm (fun j _ => rfl)
    simp only [_convert_tree, seqField, FieldSlot.value, FieldSlot.typeRef, Value.isList,
      Bool.not_true, Bool.false_and, Bool.true_and, honly, _get_wrapping_type,
      FieldSlot.outer, FieldSlot.name, Value.elems, Bind.bind, Except.bind, if_true, if_false,
      Bool.false_eq_true, ite_false, ite_true, reduceIte]
    rw [show pyStripDot ("" ++ "." ++ "items") = "items" from by decide]
    rw [helems]
    simp
    intro h
    simp only [Value.elems] at honly
    rw [h] at honly
    cases honly
  · rw [seqEntries_keys vs 0, List.range_eq_range']

/-- Witness for C8: two elements land at numeric indices `0` and `1` in
source order. -/
theorem convert_tree_sequence_multiplicity_witness :
    _convert_tree (fun _ _ => true) "o" (seqTemplate "p") 8
        [seqField [.pstr "a", .pstr "b"]] 0 "" [] (leafRoots [])
      = .ok (leafRoots (seqEntries 0 [.pstr "a", .pstr "b"]))
    ∧ (seqEntries 0 [PVal.pstr "a", PVal.pstr "b"]).length = 2
    ∧ (seqEntries 0 [PVal.pstr "a", PVal.pstr "b"]).map Prod.fst
        = (List.range 2).map WKey.idx
    ∧ (seqEntries 0 [PVal.pstr "a", PVal.pstr "b"]).map Prod.snd
        = [PVal.pstr "a", PVal.pstr "b"].map Value.prim :=
  convert_tree_sequence_multiplicity (fun _ _ => true) "o" "p" [.pstr "a", .pstr "b"] 8
    (by decide) (by decide)

/-! ## C9 -/

/-! ## C9 -/

/-- Fuel monotonicity of `build_guide_tree` and its helper loops: a
successful build is stable under additional fuel. -/
theorem build_mono (env : SchemaEnv) :
    ∀ fuel : Nat,
      (∀ s t, build_guide_tree env fuel s = some t →
        build_guide_tree env (fuel + 1) s = some t)
      ∧ (∀ cn fs ns, buildFieldNodes env fuel cn fs = some ns →
        buildFieldNodes env (fuel + 1) cn fs = some ns)
      ∧ (∀ cn ts ns, buildAltNodes env fuel cn ts = some ns →
        buildAltNodes env (fuel + 1) cn ts = some ns) := by
  intro fuel
  induction fuel with
  | zero =>
      refine ⟨fun s t h => ?_, fun cn fs ns h => ?_, fun cn ts ns h => ?_⟩ <;>
        simp [build_guide_tree, buildFieldNodes, buildAltNodes] at h
  | succ fuel ih =>
      obtain ⟨ihB, ihF, ihA⟩ := ih
      refine ⟨fun s t h => ?_, fun cn fs ns h => ?_, fun cn ts ns h => ?_⟩
      · rw [build_guide_tree] at h ⊢
        rcases Option.map_eq_some'.mp h with ⟨ns, hns, hmap⟩
        rw [ihF _ _ _ hns]
        simp [hmap]
      · cases fs with
        | nil => rw [buildFieldNodes] at h ⊢; exact h
        | cons f rest =>
            rw [buildFieldNodes] at h ⊢
            rcases Option.bind_eq_some.mp h with ⟨kids, hkids, h2⟩
            rcases Option.bind_eq_some.mp h2 with ⟨others, hothers, h3⟩
            rw [ihA _ _ _ hkids]
            simp only [Bind.bind, Option.bind, ihF _ _ _ hothers]
            exact h3
      · cases ts with
        | nil => rw [buildAltNodes] at h ⊢; exact h
        | cons t ts' =>
            rw [buildAltNodes] at h ⊢
            rcases Option.bind_eq_some.mp h with ⟨rest, hrest, h2⟩
            rw [ihA _ _ _ hrest]
            simp only [Bind.bind, Option.bind]
            cases t with
            | prim p => exact h2
            | schema b =>
                dsimp only at h2 ⊢
                by_cases hb : b = cn
                · subst hb
                  rw [if_neg (fun hcc => hcc rfl)] at h2 ⊢
                  exact h2
                · rw [if_pos hb] at h2 ⊢
                  cases hl : lookupSchema env b with
                  | none =>
                      simp only [hl] at h2 ⊢
                      exact h2
                  | some sb =>
                      simp only [hl] at h2 ⊢
                      rcases Option.map_eq_some'.mp h2 with ⟨c, hc, hmap⟩
                      rw [ihB _ _ hc]
                      simp [hmap]

theorem build_guide_tree_ge (env : SchemaEnv) {fuel fuel' : Nat} (h : fuel ≤ fuel') :
    ∀ s t, build_guide_tree env fuel s = some t → build_guide_tree env fuel' s = some t := by
  induction fuel', h using Nat.le_induction with
  | base => exact fun s t ht => ht
  | succ n _ ih => exact fun s t ht => (build_mono env n).1 s t (ih s t ht)

theorem buildFieldNodes_ge (env : SchemaEnv) {fuel fuel' : Nat} (h : fuel ≤ fuel') :
    ∀ cn fs ns, buildFieldNodes env fuel cn fs = some ns →
      buildFieldNodes env fuel' cn fs = some ns := by
  induction fuel', h using Nat.le_induction with
  | base => exact fun cn fs ns ht => ht
  | succ n _ ih => exact fun cn fs ns ht => (build_mono env n).2.1 cn fs ns (ih cn fs ns ht)

theorem buildAltNodes_ge (env : SchemaEnv) {fuel fuel' : Nat} (h : fuel ≤ fuel') :
    ∀ cn ts ns, buildAltNodes env fuel cn ts = some ns →
      buildAltNodes env fuel' cn ts = some ns := by
  induction fuel', h using Nat.le_induction with
  | base => exact fun cn ts ns ht => ht
  | succ n _ ih => exact fun cn ts ns ht => (build_mono env n).2.2 cn ts ns (ih cn ts ns ht)

/-- Sufficient fuel exists for the alternative loop as soon as it exists
for every guard-passing schema alternative. -/
theorem buildAltNodes_exists (env : SchemaEnv) (cn : String) :
    ∀ ts : List TypeRef,
      (∀ b sb, TypeRef.schema b ∈ ts → b ≠ cn → lookupSchema env b = some sb →
        ∃ fuel, ∃ c, build_guide_tree env fuel sb = some c) →
      ∃ fuel ns, buildAltNodes env fuel cn ts = some ns := by
  intro ts
  induction ts with
  | nil => exact fun _ => ⟨1, [], rfl⟩
  | cons t ts' ih =>
      intro h
      obtain ⟨F1, ns, hns⟩ := ih (fun b sb hb => h b sb (List.mem_cons_of_mem _ hb))
      cases t with
      | prim p =>
          refine ⟨F1 + 1, ns, ?_⟩
          rw [buildAltNodes, hns]
          rfl
      | schema b =>
          by_cases hb : b = cn
          · subst hb
            refine ⟨F1 + 1, ns, ?_⟩
            rw [buildAltNodes, hns]
            simp only [Bind.bind, Option.bind]
            rw [if_neg (fun hcc => hcc rfl)]
            rfl
          · cases hl : lookupSchema env b with
            | none =>
                refine ⟨F1 + 1, ns, ?_⟩
                rw [buildAltNodes, hns]
                simp only [Bind.bind, Option.bind]
                rw [if_pos hb]
                simp [hl]
            | some sb =>
                obtain ⟨F2, c, hc⟩ := h b sb (List.mem_cons_self _ _) hb hl
                refine ⟨max F1 F2 + 1, c :: ns, ?_⟩
                rw [buildAltNodes, buildAltNodes_ge env (Nat.le_max_left F1 F2) _ _ _ hns]
                simp only [Bind.bind, Option.bind]
                rw [if_pos hb]
                simp [hl, build_guide_tree_ge env (Nat.le_max_right F1 F2) _ _ hc]

/-- Sufficient fuel exists for the field loop as soon as it exists for
every guard-passing schema alternative of every field. -/
theorem buildFieldNodes_exists (env : SchemaEnv) (cn : String) :
    ∀ fs : List FieldMeta,
      (∀ f b sb, f ∈ fs → TypeRef.schema b ∈ innerAlts f.inner → b ≠ cn →
        lookupSchema env b = some sb →
        ∃ fuel, ∃ c, build_guide_tree env fuel sb = some c) →
      ∃ fuel ns, buildFieldNodes env fuel cn fs = some ns := by
  intro fs
  induction fs with
  | nil => exact fun _ => ⟨1, [], rfl⟩
  | cons f rest ih =>
      intro h
      obtain ⟨F1, ns, hns⟩ := ih (fun f' b sb hf' => h f' b sb (List.mem_cons_of_mem _ hf'))
      obtain ⟨F2, ks, hks⟩ := buildAltNodes_exists env cn (innerAlts f.inner)
        (fun b sb hb => h f b sb (List.mem_cons_self _ _) hb)
      refine ⟨max F1 F2 + 1, GNode.attr f.name [] ks :: ns, ?_⟩
      rw [buildFieldNodes, buildAltNodes_ge env (Nat.le_max_right F1 F2) _ _ _ hks]
      simp only [Bind.bind, Option.bind]
      rw [buildFieldNodes_ge env (Nat.le_max_left F1 F2) _ _ _ hns]
      rfl

/-- Under a rank function decreasing along the recursion edges of
`build_guide_tree`, sufficient fuel exists for the build to succeed. -/
theorem build_exists_of_rank (env : SchemaEnv) (s₀ : SchemaDef) (r : String → Nat)
    (hr : ∀ s ∈ s₀ :: env, ∀ sb ∈ env, refEdgeB env s sb = true → r sb.name < r s.name) :
    ∀ k s, s ∈ s₀ :: env → r s.name < k →
      ∃ fuel, ∃ t, build_guide_tree env fuel s = some t := by
  intro k
  induction k with
  | zero => intro s _ h; omega
  | succ k ih =>
      intro s hs hk
      have hfields : ∀ f b sb, f ∈ s.fields → TypeRef.schema b ∈ innerAlts f.inner →
          b ≠ s.name → lookupSchema env b = some sb →
          ∃ fuel, ∃ c, build_guide_tree env fuel sb = some c := by
        intro f b sb hf hbmem hbne hl
        have hedge : refEdgeB env s sb = true := by
          simp only [refEdgeB, List.any_eq_true]
          refine ⟨f, hf, .schema b, hbmem, ?_⟩
          simp [hbne, hl]
        have hsbmem : sb ∈ env := by
          have := List.find?_some hl
          exact List.mem_of_find?_eq_some hl
        have hrk : r sb.name < r s.name := hr s hs sb hsbmem hedge
        exact ih sb (List.mem_cons_of_mem _ hsbmem) (by omega)
      obtain ⟨F, ns, hns⟩ := buildFieldNodes_exists env s.name s.fields hfields
      refine ⟨F + 1, GNode.cls s.name ns, ?_⟩
      rw [build_guide_tree, hns]
      rfl

/-- Node-count bookkeeping of `build_guide_tree`: a successful build has
exactly one node for the tree root, one AttributeNode per expanded field
slot (`fieldSlotCount…`) and one ClassNode per guard-passing alternative
expansion (`altExpansionCount…`). -/
theorem build_count (env : SchemaEnv) :
    ∀ fuel : Nat,
      (∀ s t, build_guide_tree env fuel s = some t →
        gnodeCount t = 1 + fieldSlotCount env fuel s + altExpansionCount env fuel s)
      ∧ (∀ cn fs ns, buildFieldNodes env fuel cn fs = some ns →
        gnodeCountList ns
          = fieldSlotCountFields env fuel cn fs + altExpansionCountFields env fuel cn fs)
      ∧ (∀ cn ts ns, buildAltNodes env fuel cn ts = some ns →
        gnodeCountList ns
          = fieldSlotCountAlts env fuel cn ts + altExpansionCountAlts env fuel cn ts) := by
  intro fuel
  induction fuel with
  | zero =>
      refine ⟨fun s t h => ?_, fun cn fs ns h => ?_, fun cn ts ns h => ?_⟩ <;>
        simp [build_guide_tree, buildFieldNodes, buildAltNodes] at h
  | succ fuel ih =>
      obtain ⟨ihB, ihF, ihA⟩ := ih
      refine ⟨fun s t h => ?_, fun cn fs ns h => ?_, fun cn ts ns h => ?_⟩
      · rw [build_guide_tree] at h
        rcases Option.map_eq_some'.mp h with ⟨ns, hns, hmap⟩
        subst hmap
        rw [gnodeCount, fieldSlotCount, altExpansionCount, ihF _ _ _ hns]
        omega
      · cases fs with
        | nil =>
            rw [buildFieldNodes] at h
            injection h with h
            subst h
            rfl
        | cons f rest =>
            rw [buildFieldNodes] at h
            rcases Option.bind_eq_some.mp h with ⟨kids, hkids, h2⟩
            rcases Option.bind_eq_some.mp h2 with ⟨others, hothers, h3⟩
            injection h3 with h3
            subst h3
            rw [gnodeCountList, gnodeCount, fieldSlotCountFields, altExpansionCountFields,
              ihA _ _ _ hkids, ihF _ _ _ hothers]
            omega
      · cases ts with
        | nil =>
            rw [buildAltNodes] at h
            injection h with h
            subst h
            rfl
        | cons t ts' =>
            rw [buildAltNodes] at h
            rcases Option.bind_eq_some.mp h with ⟨rest, hrest, h2⟩
            cases t with
            | prim p =>
                dsimp only at h2
                injection h2 with h2
                subst h2
                rw [fieldSlotCountAlts, altExpansionCountAlts, ihA _ _ _ hrest]
                omega
            | schema b =>
                dsimp only at h2
                rw [fieldSlotCountAlts, altExpansionCountAlts]
                by_cases hb : b = cn
                · subst hb
                  rw [if_neg (fun hcc => hcc rfl)] at h2
                  injection h2 with h2
                  subst h2
                  have hcc : ¬ (b ≠ b) := fun hcc => hcc rfl
                  simp only [if_neg hcc]
                  rw [ihA _ _ _ hrest]
                  omega
                · rw [if_pos hb] at h2
                  simp only [if_pos hb]
                  cases hl : lookupSchema env b with
                  | none =>
                      rw [hl] at h2
                      injection h2 with h2
                      subst h2
                      simp only [hl]
                      rw [ihA _ _ _ hrest]
                      omega
                  | some sb =>
                      rw [hl] at h2
                      rcases Option.map_eq_some'.mp h2 with ⟨c, hc, hmap⟩
                      subst hmap
                      simp only [hl]
                      rw [gnodeCountList, ihB _ _ hc, ihA _ _ _ hrest]
                      omega

/-- A schema environment with a single fieldless schema. -/
def envEmptySchema : SchemaEnv := [⟨"Empty", "m", []⟩]

/-- C9 counterexample to the claimed bound: for a fieldless schema the
built tree has one node (its root ClassNode), while "the number of
declared fields plus transitively reachable nested-schema fields" is
zero — the node count exceeds the claimed bound. -/
theorem build_guide_tree_node_count_cex :
    build_guide_tree envEmptySchema 2 ⟨"Empty", "m", []⟩ = some (.cls "Empty" [])
    ∧ gnodeCount (.cls "Empty" []) = 1
    ∧ fieldSlotCount envEmptySchema 2 ⟨"Empty", "m", []⟩ = 0
    ∧ ¬ gnodeCount (.cls "Empty" []) ≤ fieldSlotCount envEmptySchema 2 ⟨"Empty", "m", []⟩ :=
  ⟨rfl, rfl, rfl, by decide⟩

/-- C9 (amended): for every schema whose guard-passing recursion edges
admit a strictly decreasing rank (no deep self-reference),
`build_guide_tree` terminates — some fuel `N` makes it succeed and every
larger fuel returns the same tree; and whenever it succeeds, the node
count of the resulting tree is exactly one (the root ClassNode) plus the
number of declared-plus-transitively-reachable nested-schema field slots
(one AttributeNode each) plus the number of guard-passing schema
alternatives expanded (one ClassNode each) — bounded by, but in general
exceeding, the claimed field count alone. -/
theorem build_guide_tree_termination_and_count
    (env : SchemaEnv) (s₀ : SchemaDef) (r : String → Nat)
    (hr : ∀ s ∈ s₀ :: env, ∀ sb ∈ env, refEdgeB env s sb = true → r sb.name < r s.name) :
    (∃ N, (build_guide_tree env N s₀).isSome = true
        ∧ ∀ fuel, N ≤ fuel → build_guide_tree env fuel s₀ = build_guide_tree env N s₀)
    ∧ (∀ fuel t, build_guide_tree env fuel s₀ = some t →
        gnodeCount t = 1 + fieldSlotCount env fuel s₀ + altExpansionCount env fuel s₀) := by
  constructor
  · obtain ⟨N, t, hN⟩ := build_exists_of_rank env s₀ r hr (r s₀.name + 1) s₀
      (List.mem_cons_self _ _) (by omega)
    refine ⟨N, by rw [hN]; rfl, fun fuel hf => ?_⟩
    rw [hN, build_guide_tree_ge env hf _ _ hN]
  · intro fuel t ht
    exact (build_count env fuel).1 s₀ t ht

/-- The two-schema environment `A → B` used by the C9 witness. -/
def envAB : SchemaEnv :=
  [⟨"B", "m", []⟩, ⟨"A", "m", [⟨"b", none, .single (.schema "B"), []⟩]⟩]

/-- The schema `A` of `envAB`. -/
def schemaA : SchemaDef := ⟨"A", "m", [⟨"b", none, .single (.schema "B"), []⟩]⟩

/-- Witness for C9 (amended): the rank `A ↦ 1, B ↦ 0` decreases along the
single recursion edge of `envAB`, so the build of `A` terminates and its
node count obeys the formula. -/
theorem build_guide_tree_termination_and_count_witness :
    (∃ N, (build_guide_tree envAB N schemaA).isSome = true
        ∧ ∀ fuel, N ≤ fuel → build_guide_tree envAB fuel schemaA
            = build_guide_tree envAB N schemaA)
    ∧ (∀ fuel t, build_guide_tree envAB fuel schemaA = some t →
        gnodeCount t = 1 + fieldSlotCount envAB fuel schemaA
          + altExpansionCount envAB fuel schemaA) :=
  build_guide_tree_termination_and_count envAB schemaA
    (fun n => if n = "A" then 1 else 0) (by decide)
